import Mathlib

/-!
Verification development for the ORE scenario-driven simulation market and
valuation cube subsystem.

The definitions below are a shallow embedding of the C++ sources:

* `src/OREAnalytics/orea/scenario/scenariosimmarket.cpp`
  (`parseDecayMode`, the `ScenarioSimMarket` constructor, `ScenarioSimMarket::update`)
* `src/OREAnalytics/orea/scenario/scenariosimmarketparameters.cpp`
  (`returnTenors`, `returnDayCounter` and the per-qualifier accessors)
* `src/OREAnalytics/orea/app/oreapp.cpp` (the XVA cross-checks in `OREApp::run`
  and `OREApp::initCube`)

Machine reals (`QuantLib::Real`) are modelled as rationals, `QuantLib::Date`
and `QuantLib::Period` as integers; the std::map backing the quote bank is
modelled as an association list with unique keys.  Stateful C++ code is
modelled as explicit state passing; calls that can throw return `Except`.
Side effects on the QuantLib observer graph and on the aggregation data sink
are recorded as an explicit event trace.
-/

namespace OREEngine

/-- Dates are modelled as integers (serial day numbers). -/
abbrev Date := Int

/-- QuantLib Periods are modelled as integers (the comparison with 0*Days in
the source is an ordering test, which integers support). -/
abbrev Period := Int

/-- Quote values (QuantLib::Real) are modelled as rationals. -/
abbrev Value := ℚ

/-- The risk factor categories that the ScenarioSimMarket constructor in this
revision registers quote cells for (RiskFactorKey::KeyType). -/
inductive KeyType
  | DiscountCurve
  | YieldCurve
  | IndexCurve
  | FXSpot
  | SwaptionVolatility
  | OptionletVolatility
  | FXVolatility
  | EQSpot
  | EQVolatility
  deriving DecidableEq, Repr

/-- RiskFactorKey: (category, qualifier name, integer index). -/
structure RiskFactorKey where
  keytype : KeyType
  name : String
  keyIndex : Nat
  deriving DecidableEq, Repr

/-- Modelled from the spec: the `Scenario` interface (its implementation is
not under src/, only its callers).  A scenario carries an ordered key
sequence, a value for each key (`get`), and a numeraire.  `get` is modelled
as a total function; `update` only evaluates it on members of `keys`. -/
structure Scenario where
  keys : List RiskFactorKey
  get : RiskFactorKey → Value
  numeraire : Value

/-- Modelled from the spec: `Scenario::has`, the non-throwing membership
probe. -/
def Scenario.has (s : Scenario) (k : RiskFactorKey) : Bool :=
  decide (k ∈ s.keys)

/-- Modelled from the spec: a deterministic `ScenarioGenerator` stream:
`next(date)` yields the scenario at the current stream position and advances,
`reset()` rewinds to the first scenario. -/
structure ScenarioGenerator where
  gen : Nat → Date → Scenario
  pos : Nat

def ScenarioGenerator.next (g : ScenarioGenerator) (d : Date) :
    Scenario × ScenarioGenerator :=
  (g.gen g.pos d, { g with pos := g.pos + 1 })

def ScenarioGenerator.reset (g : ScenarioGenerator) : ScenarioGenerator :=
  { g with pos := 0 }

/-- Modelled from the spec: the observation-mode enum consulted inside
`update` (orea/engine/observationmode.hpp is not under src/). -/
inductive ObsMode
  | Disable
  | Defer
  | Unregister
  | Accurate
  deriving DecidableEq, Repr

/-- One observable side effect of `ScenarioSimMarket::update`, in source
order: observer-settings toggles, evaluation-date changes, quote-cell writes,
the explicit refresh pass, the fixing-manager refresh, and the aggregation
scenario data (ASD) calls. -/
inductive MEvent
  | disableUpdates (deferred : Bool)
  | enableUpdates
  | setEvalDate (d : Date)
  | notifyEvalDateObservers
  | writeCell (k : RiskFactorKey) (v : Value)
  | refresh
  | fixingsUpdate (d : Date)
  | asdSetIndexFixing (indexName : String) (v : Value)
  | asdSetFXSpot (ccy : String) (v : Value)
  | asdSetNumeraire (v : Value)
  | asdNext
  deriving DecidableEq, Repr

/-- The simulation market state.  `simData` is the quote bank
(`simData_ : std::map<RiskFactorKey, SimpleQuote>`), modelled as an
association list with unique keys.  `evalDate` models the process-global
`Settings::instance().evaluationDate()` and `obsMode` the process-global
`ObservationMode::instance().mode()`, both threaded through the market state.
`iborFixing` and `fxTriangulation` abstract the term-structure reads
performed when filling the aggregation scenario data. -/
structure ScenarioSimMarket where
  simData : List (RiskFactorKey × Value)
  numeraire : Value
  generator : ScenarioGenerator
  evalDate : Date
  obsMode : ObsMode
  asdAttached : Bool
  addScenDataIndices : List String
  addScenDataCcys : List String
  baseCcy : String
  iborFixing : String → Date → Value
  fxTriangulation : String → Value

/-- `simData_.find(key)`: look the key up in the quote bank. -/
def lookupCell (bank : List (RiskFactorKey × Value)) (k : RiskFactorKey) :
    Option Value :=
  (bank.find? (fun p => decide (p.1 = k))).map Prod.snd

/-- `it->second->setValue(v)`: set the (unique) cell with key `k`. -/
def setCell (bank : List (RiskFactorKey × Value)) (k : RiskFactorKey)
    (v : Value) : List (RiskFactorKey × Value) :=
  bank.map (fun p => if p.1 = k then (p.1, v) else p)

/-- The key list of the quote bank. -/
def keysOf (bank : List (RiskFactorKey × Value)) : List RiskFactorKey :=
  bank.map Prod.fst

/-- State of the key loop in `ScenarioSimMarket::update`
(scenariosimmarket.cpp lines 656 to 669): the evolving bank, the counter of
matched keys, the `missingPoint` flag, and the emitted write events. -/
structure UpdateLoopState where
  bank : List (RiskFactorKey × Value)
  count : Nat
  missingPoint : Bool
  trace : List MEvent
  deriving Repr

/-- One iteration of the key loop: `auto it = simData_.find(key); if (it ==
simData_.end()) missingPoint = true; else { it->second->setValue(...);
count++; }`. -/
def updateLoopStep (sc : Scenario) (st : UpdateLoopState)
    (k : RiskFactorKey) : UpdateLoopState :=
  match lookupCell st.bank k with
  | none => { st with missingPoint := true }
  | some _ =>
      { bank := setCell st.bank k (sc.get k)
        count := st.count + 1
        missingPoint := st.missingPoint
        trace := st.trace ++ [MEvent.writeCell k (sc.get k)] }

/-- The whole key loop of `update`, over the scenario key sequence. -/
def updateLoop (sc : Scenario) (bank : List (RiskFactorKey × Value)) :
    UpdateLoopState :=
  sc.keys.foldl (updateLoopStep sc) ⟨bank, 0, false, []⟩

/-- The two fatal `update` errors: `QL_REQUIRE(!missingPoint, "simulation
data points missing from scenario, exit.")` and `QL_FAIL("mismatch between
scenario and sim data size, exit.")`. -/
inductive UpdateError
  | missingScenarioData
  | scenarioSizeMismatch
  deriving DecidableEq, Repr

/-- Lines 632 to 637: `ObservableSettings::instance().disableUpdates(false)`
on Disable, `disableUpdates(true)` on Defer. -/
def preEvents (m : ScenarioSimMarket) : List MEvent :=
  match m.obsMode with
  | ObsMode.Disable => [MEvent.disableUpdates false]
  | ObsMode.Defer => [MEvent.disableUpdates true]
  | _ => []

/-- Lines 643 to 654: set the evaluation date if it changed, else under
Unregister mode kick off a manual observer notification. -/
def evalDateEvents (m : ScenarioSimMarket) (d : Date) : List MEvent :=
  if d ≠ m.evalDate then [MEvent.setEvalDate d]
  else if m.obsMode = ObsMode.Unregister then [MEvent.notifyEvalDateObservers]
  else []

/-- Lines 682 to 688: on Disable, `refresh()` then `enableUpdates()`; on
Defer, `enableUpdates()` only. -/
def postEvents (m : ScenarioSimMarket) : List MEvent :=
  match m.obsMode with
  | ObsMode.Disable => [MEvent.refresh, MEvent.enableUpdates]
  | ObsMode.Defer => [MEvent.enableUpdates]
  | _ => []

/-- `fxSpot(c + baseCcy)->value()` after the scenario was applied: the
written FXSpot quote cell if the pair is simulated, else the triangulation
fallback. -/
def fxSpotValue (m : ScenarioSimMarket) (bank : List (RiskFactorKey × Value))
    (pair : String) : Value :=
  (lookupCell bank ⟨KeyType.FXSpot, pair, 0⟩).getD (m.fxTriangulation pair)

/-- Lines 691 to 705: if an ASD sink is attached, record one index fixing per
configured additional index, one FX spot per configured additional currency
other than the base currency, and the numeraire, then advance the sink. -/
def asdEvents (m : ScenarioSimMarket) (bank : List (RiskFactorKey × Value))
    (d : Date) (num : Value) : List MEvent :=
  if m.asdAttached then
    (m.addScenDataIndices.map
        (fun i => MEvent.asdSetIndexFixing i (m.iborFixing i d)))
      ++ ((m.addScenDataCcys.filter (fun c => decide (c ≠ m.baseCcy))).map
        (fun c => MEvent.asdSetFXSpot c (fxSpotValue m bank (c ++ m.baseCcy))))
      ++ [MEvent.asdSetNumeraire num, MEvent.asdNext]
  else []

/-- `ScenarioSimMarket::update(const Date&)` (scenariosimmarket.cpp lines 629
to 708), returning the new market state (or the fatal error) together with
the emitted event trace. -/
def ScenarioSimMarket.update (m : ScenarioSimMarket) (d : Date) :
    Except UpdateError ScenarioSimMarket × List MEvent :=
  let evs0 := preEvents m
  let scg := m.generator.next d
  let sc := scg.1
  let evs1 := evs0 ++ evalDateEvents m d
  let st := updateLoop sc m.simData
  let evs2 := evs1 ++ st.trace
  if st.missingPoint then (Except.error UpdateError.missingScenarioData, evs2)
  else if st.count ≠ m.simData.length then
    (Except.error UpdateError.scenarioSizeMismatch, evs2)
  else
    (Except.ok { m with
        simData := st.bank
        numeraire := sc.numeraire
        generator := scg.2
        evalDate := d },
      evs2 ++ postEvents m ++ [MEvent.fixingsUpdate d]
        ++ asdEvents m st.bank d sc.numeraire)

/-! ### Basic quote-bank lemmas -/

theorem keysOf_setCell (bank : List (RiskFactorKey × Value))
    (k : RiskFactorKey) (v : Value) :
    keysOf (setCell bank k v) = keysOf bank := by
  unfold keysOf setCell
  rw [List.map_map]
  apply List.map_congr_left
  intro p _
  by_cases h : p.1 = k <;> simp [h]

theorem lookupCell_isSome_iff (bank : List (RiskFactorKey × Value))
    (k : RiskFactorKey) :
    (lookupCell bank k).isSome ↔ k ∈ keysOf bank := by
  unfold lookupCell keysOf
  cases hfind : bank.find? (fun p => decide (p.1 = k)) with
  | none =>
      simp only [Option.map_none', Option.isSome_none, Bool.false_eq_true,
        false_iff]
      intro hk
      rcases List.mem_map.mp hk with ⟨p, hp, hpk⟩
      have hnone := List.find?_eq_none.mp hfind p hp
      simp [hpk] at hnone
  | some p =>
      simp only [Option.map_some', Option.isSome_some, true_iff]
      have hmem := List.mem_of_find?_eq_some hfind
      have hpk : p.1 = k := by
        have := List.find?_some hfind
        simpa using this
      exact List.mem_map.mpr ⟨p, hmem, hpk⟩

theorem lookupCell_eq_none_iff (bank : List (RiskFactorKey × Value))
    (k : RiskFactorKey) :
    lookupCell bank k = none ↔ k ∉ keysOf bank := by
  rw [← lookupCell_isSome_iff]
  cases lookupCell bank k <;> simp

/-! ### Closed-form characterization of the update key loop -/

/-- The per-entry effect of applying scenario `sc` over key list `ks`. -/
def writeEntry (sc : Scenario) (ks : List RiskFactorKey)
    (p : RiskFactorKey × Value) : RiskFactorKey × Value :=
  if p.1 ∈ ks then (p.1, sc.get p.1) else p

theorem foldl_updateLoopStep_char (sc : Scenario) (ks : List RiskFactorKey) :
    ∀ st : UpdateLoopState,
      ks.foldl (updateLoopStep sc) st =
        { bank := st.bank.map (writeEntry sc ks)
          count := st.count + ks.countP (fun k => decide (k ∈ keysOf st.bank))
          missingPoint :=
            st.missingPoint || ks.any (fun k => !decide (k ∈ keysOf st.bank))
          trace := st.trace ++ ks.filterMap (fun k =>
            if k ∈ keysOf st.bank then some (MEvent.writeCell k (sc.get k))
            else none) } := by
  induction ks with
  | nil =>
      intro st
      have hmap : st.bank.map (writeEntry sc []) = st.bank := by
        have h1 : st.bank.map (writeEntry sc []) = st.bank.map id := by
          apply List.map_congr_left
          intro p _
          simp [writeEntry]
        rw [h1, List.map_id]
      simp [hmap]
  | cons k ks ih =>
      intro st
      rw [List.foldl_cons]
      cases hfind : lookupCell st.bank k with
      | none =>
          have hk : k ∉ keysOf st.bank := (lookupCell_eq_none_iff _ _).mp hfind
          have hstep : updateLoopStep sc st k = { st with missingPoint := true } := by
            unfold updateLoopStep
            rw [hfind]
          rw [hstep, ih]
          congr 1
          · apply List.map_congr_left
            intro p hp
            have hpk : p.1 ≠ k := by
              intro h
              exact hk (h ▸ List.mem_map.mpr ⟨p, hp, rfl⟩)
            simp only [writeEntry, List.mem_cons]
            by_cases hmem : p.1 ∈ ks <;> simp [hmem, hpk]
          · simp [List.countP_cons, hk]
          · simp [hk]
          · simp [hk]
      | some v =>
          have hk : k ∈ keysOf st.bank := by
            have : (lookupCell st.bank k).isSome = true := by
              rw [hfind]; rfl
            exact (lookupCell_isSome_iff _ _).mp this
          have hstep : updateLoopStep sc st k =
              { bank := setCell st.bank k (sc.get k)
                count := st.count + 1
                missingPoint := st.missingPoint
                trace := st.trace ++ [MEvent.writeCell k (sc.get k)] } := by
            unfold updateLoopStep
            rw [hfind]
          rw [hstep, ih]
          have hkeys : keysOf (setCell st.bank k (sc.get k)) = keysOf st.bank :=
            keysOf_setCell _ _ _
          congr 1
          · unfold setCell
            rw [List.map_map]
            apply List.map_congr_left
            intro p _
            simp only [Function.comp_apply, writeEntry, List.mem_cons]
            by_cases hpk : p.1 = k
            · by_cases hmem : p.1 ∈ ks <;> simp [hpk, hmem]
            · by_cases hmem : p.1 ∈ ks <;> simp [hpk, hmem]
          · rw [hkeys, List.countP_cons]
            have hone : (if (fun k => decide (k ∈ keysOf st.bank)) k = true
                then 1 else 0) = 1 := by simp [hk]
            rw [hone]
            dsimp only
            omega
          · rw [hkeys]
            simp [hk]
          · rw [hkeys]
            simp [List.filterMap_cons, hk]

theorem updateLoop_char (sc : Scenario) (bank : List (RiskFactorKey × Value)) :
    updateLoop sc bank =
      { bank := bank.map (writeEntry sc sc.keys)
        count := sc.keys.countP (fun k => decide (k ∈ keysOf bank))
        missingPoint := sc.keys.any (fun k => !decide (k ∈ keysOf bank))
        trace := sc.keys.filterMap (fun k =>
          if k ∈ keysOf bank then some (MEvent.writeCell k (sc.get k))
          else none) } := by
  unfold updateLoop
  rw [foldl_updateLoopStep_char]
  dsimp only
  simp

theorem updateLoop_bank (sc : Scenario) (bank : List (RiskFactorKey × Value)) :
    (updateLoop sc bank).bank = bank.map (writeEntry sc sc.keys) := by
  rw [updateLoop_char]

theorem updateLoop_count (sc : Scenario) (bank : List (RiskFactorKey × Value)) :
    (updateLoop sc bank).count =
      sc.keys.countP (fun k => decide (k ∈ keysOf bank)) := by
  rw [updateLoop_char]

theorem updateLoop_missingPoint (sc : Scenario)
    (bank : List (RiskFactorKey × Value)) :
    (updateLoop sc bank).missingPoint =
      sc.keys.any (fun k => !decide (k ∈ keysOf bank)) := by
  rw [updateLoop_char]

theorem updateLoop_trace (sc : Scenario) (bank : List (RiskFactorKey × Value)) :
    (updateLoop sc bank).trace =
      sc.keys.filterMap (fun k =>
        if k ∈ keysOf bank then some (MEvent.writeCell k (sc.get k))
        else none) := by
  rw [updateLoop_char]

/-! ### Characterization of `ScenarioSimMarket.update` -/

theorem updateLoop_missingPoint_eq_false_iff (sc : Scenario)
    (bank : List (RiskFactorKey × Value)) :
    (updateLoop sc bank).missingPoint = false ↔
      ∀ k ∈ sc.keys, k ∈ keysOf bank := by
  rw [updateLoop_missingPoint]
  simp

theorem updateLoop_missingPoint_eq_true_iff (sc : Scenario)
    (bank : List (RiskFactorKey × Value)) :
    (updateLoop sc bank).missingPoint = true ↔
      ∃ k ∈ sc.keys, lookupCell bank k = none := by
  rw [updateLoop_missingPoint]
  simp only [List.any_eq_true, Bool.not_eq_true']
  constructor
  · rintro ⟨k, hk, hkb⟩
    refine ⟨k, hk, (lookupCell_eq_none_iff _ _).mpr ?_⟩
    simpa using hkb
  · rintro ⟨k, hk, hkb⟩
    refine ⟨k, hk, ?_⟩
    simpa using (lookupCell_eq_none_iff _ _).mp hkb

/-- On both error paths and the success path, `update` is fully determined by
the `missingPoint` flag and the matched-key count of the loop. -/
theorem update_eq_of_missing (m : ScenarioSimMarket) (d : Date)
    (hm : (updateLoop (m.generator.next d).1 m.simData).missingPoint = true) :
    m.update d =
      (Except.error UpdateError.missingScenarioData,
        preEvents m ++ evalDateEvents m d
          ++ (updateLoop (m.generator.next d).1 m.simData).trace) := by
  unfold ScenarioSimMarket.update
  simp [hm, List.append_assoc]

theorem update_eq_of_sizeMismatch (m : ScenarioSimMarket) (d : Date)
    (hm : (updateLoop (m.generator.next d).1 m.simData).missingPoint = false)
    (hc : (updateLoop (m.generator.next d).1 m.simData).count ≠
      m.simData.length) :
    m.update d =
      (Except.error UpdateError.scenarioSizeMismatch,
        preEvents m ++ evalDateEvents m d
          ++ (updateLoop (m.generator.next d).1 m.simData).trace) := by
  unfold ScenarioSimMarket.update
  simp [hm, hc, List.append_assoc]

theorem update_eq_of_ok (m : ScenarioSimMarket) (d : Date)
    (hm : (updateLoop (m.generator.next d).1 m.simData).missingPoint = false)
    (hc : (updateLoop (m.generator.next d).1 m.simData).count =
      m.simData.length) :
    m.update d =
      (Except.ok { m with
          simData := (updateLoop (m.generator.next d).1 m.simData).bank
          numeraire := (m.generator.next d).1.numeraire
          generator := (m.generator.next d).2
          evalDate := d },
        preEvents m ++ evalDateEvents m d
          ++ (updateLoop (m.generator.next d).1 m.simData).trace
          ++ postEvents m ++ [MEvent.fixingsUpdate d]
          ++ asdEvents m (updateLoop (m.generator.next d).1 m.simData).bank d
              (m.generator.next d).1.numeraire) := by
  unfold ScenarioSimMarket.update
  simp [hm, hc, List.append_assoc]

/-- Inversion: a successful `update` forces both checks to have passed and
determines the new market state. -/
theorem update_ok_inv (m : ScenarioSimMarket) (d : Date)
    (m' : ScenarioSimMarket) (h : (m.update d).1 = Except.ok m') :
    (updateLoop (m.generator.next d).1 m.simData).missingPoint = false ∧
    (updateLoop (m.generator.next d).1 m.simData).count = m.simData.length ∧
    m' = { m with
        simData := (updateLoop (m.generator.next d).1 m.simData).bank
        numeraire := (m.generator.next d).1.numeraire
        generator := (m.generator.next d).2
        evalDate := d } := by
  by_cases hm : (updateLoop (m.generator.next d).1 m.simData).missingPoint
  · rw [update_eq_of_missing m d hm] at h
    exact absurd h (by simp)
  · have hm0 : (updateLoop (m.generator.next d).1 m.simData).missingPoint
        = false := by simpa using hm
    by_cases hc : (updateLoop (m.generator.next d).1 m.simData).count =
        m.simData.length
    · rw [update_eq_of_ok m d hm0 hc] at h
      refine ⟨hm0, hc, ?_⟩
      have := h.symm
      injection this
    · rw [update_eq_of_sizeMismatch m d hm0 hc] at h
      exact absurd h (by simp)

/-- A successful `update` also reports the full trace shape. -/
theorem update_ok_pair_inv (m : ScenarioSimMarket) (d : Date)
    (m' : ScenarioSimMarket) (tr : List MEvent)
    (h : m.update d = (Except.ok m', tr)) :
    (updateLoop (m.generator.next d).1 m.simData).missingPoint = false ∧
    (updateLoop (m.generator.next d).1 m.simData).count = m.simData.length ∧
    m' = { m with
        simData := (updateLoop (m.generator.next d).1 m.simData).bank
        numeraire := (m.generator.next d).1.numeraire
        generator := (m.generator.next d).2
        evalDate := d } ∧
    tr = preEvents m ++ evalDateEvents m d
        ++ (updateLoop (m.generator.next d).1 m.simData).trace
        ++ postEvents m ++ [MEvent.fixingsUpdate d]
        ++ asdEvents m (updateLoop (m.generator.next d).1 m.simData).bank d
            (m.generator.next d).1.numeraire := by
  have h1 : (m.update d).1 = Except.ok m' := by rw [h]
  rcases update_ok_inv m d m' h1 with ⟨hm, hc, hm'⟩
  refine ⟨hm, hc, hm', ?_⟩
  have heq := update_eq_of_ok m d hm hc
  rw [h] at heq
  have h2 := congrArg Prod.snd heq
  simpa using h2

/-! ### Claim C1 -/

/-- Claim C1: for every call to `ScenarioSimMarket::update(d)`, if the
scenario pulled from the generator contains a key with no matching registered
quote cell, update raises the fatal MissingScenarioData error; if the number
of scenario keys matched to quote cells differs from the total number of
registered cells, update raises a fatal error (the ScenarioSizeMismatch case
when no key was missing); and update completes without error exactly when
neither condition holds. -/
theorem claim_C1 (m : ScenarioSimMarket) (d : Date) :
    ((∃ k ∈ (m.generator.next d).1.keys, lookupCell m.simData k = none) →
        (m.update d).1 = Except.error UpdateError.missingScenarioData)
    ∧ ((updateLoop (m.generator.next d).1 m.simData).count ≠ m.simData.length →
        ∃ e, (m.update d).1 = Except.error e)
    ∧ ((updateLoop (m.generator.next d).1 m.simData).missingPoint = false →
        (updateLoop (m.generator.next d).1 m.simData).count ≠
          m.simData.length →
        (m.update d).1 = Except.error UpdateError.scenarioSizeMismatch)
    ∧ ((∃ m', (m.update d).1 = Except.ok m') ↔
        ((∀ k ∈ (m.generator.next d).1.keys, k ∈ keysOf m.simData) ∧
          (updateLoop (m.generator.next d).1 m.simData).count =
            m.simData.length)) := by
  refine ⟨?_, ?_, ?_, ?_⟩
  · intro hex
    have hm : (updateLoop (m.generator.next d).1 m.simData).missingPoint
        = true := (updateLoop_missingPoint_eq_true_iff _ _).mpr hex
    rw [update_eq_of_missing m d hm]
  · intro hc
    by_cases hm : (updateLoop (m.generator.next d).1 m.simData).missingPoint
    · exact ⟨UpdateError.missingScenarioData,
        by rw [update_eq_of_missing m d hm]⟩
    · have hm0 : (updateLoop (m.generator.next d).1 m.simData).missingPoint
          = false := by simpa using hm
      exact ⟨UpdateError.scenarioSizeMismatch,
        by rw [update_eq_of_sizeMismatch m d hm0 hc]⟩
  · intro hm0 hc
    rw [update_eq_of_sizeMismatch m d hm0 hc]
  · constructor
    · rintro ⟨m', h⟩
      rcases update_ok_inv m d m' h with ⟨hm, hc, _⟩
      exact ⟨(updateLoop_missingPoint_eq_false_iff _ _).mp hm, hc⟩
    · rintro ⟨hall, hc⟩
      have hm : (updateLoop (m.generator.next d).1 m.simData).missingPoint
          = false := (updateLoop_missingPoint_eq_false_iff _ _).mpr hall
      exact ⟨_, by rw [update_eq_of_ok m d hm hc]⟩

/-- C1 witness fixture: a one-cell market driven by a fixed scenario. -/
def c1Key : RiskFactorKey := ⟨KeyType.FXSpot, "EURUSD", 0⟩

def c1KeyB : RiskFactorKey := ⟨KeyType.FXSpot, "USDJPY", 0⟩

def c1ScenarioMissing : Scenario := ⟨[c1KeyB], fun _ => 2, 1⟩

def c1ScenarioShort : Scenario := ⟨[], fun _ => 2, 1⟩

def c1ScenarioOk : Scenario := ⟨[c1Key], fun _ => 2, 1⟩

def c1BaseMarket (sc : Scenario) : ScenarioSimMarket :=
  { simData := [(c1Key, 1)]
    numeraire := 1
    generator := ⟨fun _ _ => sc, 0⟩
    evalDate := 0
    obsMode := ObsMode.Accurate
    asdAttached := false
    addScenDataIndices := []
    addScenDataCcys := []
    baseCcy := "EUR"
    iborFixing := fun _ _ => 0
    fxTriangulation := fun _ => 0 }

theorem claim_C1_witness :
    ((c1BaseMarket c1ScenarioMissing).update 1).1 =
        Except.error UpdateError.missingScenarioData
    ∧ (∃ e, ((c1BaseMarket c1ScenarioShort).update 1).1 = Except.error e)
    ∧ ((c1BaseMarket c1ScenarioShort).update 1).1 =
        Except.error UpdateError.scenarioSizeMismatch
    ∧ (∃ m', ((c1BaseMarket c1ScenarioOk).update 1).1 = Except.ok m') := by
  refine ⟨(claim_C1 (c1BaseMarket c1ScenarioMissing) 1).1
      ⟨c1KeyB, by decide, by decide⟩,
    (claim_C1 (c1BaseMarket c1ScenarioShort) 1).2.1 (by decide),
    (claim_C1 (c1BaseMarket c1ScenarioShort) 1).2.2.1 (by decide) (by decide),
    ((claim_C1 (c1BaseMarket c1ScenarioOk) 1).2.2.2).mpr
      ⟨by decide, by decide⟩⟩

/-! ### Claim C2 -/

/-- Number of quote-cell writes for key `k` in an event trace. -/
def writesFor (tr : List MEvent) (k : RiskFactorKey) : Nat :=
  tr.countP (fun e => match e with
    | MEvent.writeCell k2 _ => decide (k2 = k)
    | _ => false)

theorem writesFor_append (t1 t2 : List MEvent) (k : RiskFactorKey) :
    writesFor (t1 ++ t2) k = writesFor t1 k + writesFor t2 k := by
  unfold writesFor
  exact List.countP_append _ _ _

theorem writesFor_preEvents (m : ScenarioSimMarket) (k : RiskFactorKey) :
    writesFor (preEvents m) k = 0 := by
  unfold preEvents
  cases m.obsMode <;> simp [writesFor]

theorem writesFor_evalDateEvents (m : ScenarioSimMarket) (d : Date)
    (k : RiskFactorKey) : writesFor (evalDateEvents m d) k = 0 := by
  unfold evalDateEvents
  by_cases h : d ≠ m.evalDate
  · simp [h, writesFor]
  · by_cases h2 : m.obsMode = ObsMode.Unregister <;> simp [h, h2, writesFor]

theorem writesFor_postEvents (m : ScenarioSimMarket) (k : RiskFactorKey) :
    writesFor (postEvents m) k = 0 := by
  unfold postEvents
  cases m.obsMode <;> simp [writesFor]

theorem writesFor_asdEvents (m : ScenarioSimMarket)
    (bank : List (RiskFactorKey × Value)) (d : Date) (num : Value)
    (k : RiskFactorKey) : writesFor (asdEvents m bank d num) k = 0 := by
  unfold asdEvents
  by_cases h : m.asdAttached
  · simp only [h, if_pos]
    unfold writesFor
    rw [List.countP_append, List.countP_append]
    rw [List.countP_eq_zero.mpr
        (by intro e he; simp at he; rcases he with ⟨i, _, rfl⟩; simp),
      List.countP_eq_zero.mpr
        (by intro e he; simp at he; rcases he with ⟨c, _, rfl⟩; simp)]
    simp
  · simp [h, writesFor]

/-- The loop trace contains, for a registered key `k`, exactly as many writes
of `k` as there are occurrences of `k` in the scenario key sequence. -/
theorem writesFor_loopTrace (sc : Scenario)
    (bank : List (RiskFactorKey × Value)) (k : RiskFactorKey)
    (hk : k ∈ keysOf bank) :
    writesFor (updateLoop sc bank).trace k = sc.keys.count k := by
  rw [updateLoop_trace]
  induction sc.keys with
  | nil => simp [writesFor]
  | cons k2 ks ih =>
      rw [List.filterMap_cons]
      by_cases h2 : k2 ∈ keysOf bank
      · rw [if_pos h2]
        dsimp only
        unfold writesFor at ih ⊢
        rw [List.countP_cons, ih, List.count_cons]
        by_cases hk2 : k2 = k <;> simp [hk2]
      · have hk2 : k2 ≠ k := fun he => h2 (he ▸ hk)
        rw [if_neg h2]
        dsimp only
        rw [ih, List.count_cons]
        simp [hk2]

/-- Claim C2 counterexample: a scenario whose key sequence repeats one
registered key and omits another passes both update checks (2 keys matched,
bank of size 2, no missing point) while the omitted cell receives no write
and keeps its stale value. -/
def c2Key1 : RiskFactorKey := ⟨KeyType.DiscountCurve, "EUR", 0⟩

def c2Key2 : RiskFactorKey := ⟨KeyType.DiscountCurve, "EUR", 1⟩

def c2Scenario : Scenario := ⟨[c2Key1, c2Key1], fun _ => 5, 1⟩

def c2Market : ScenarioSimMarket :=
  { simData := [(c2Key1, 3), (c2Key2, 3)]
    numeraire := 1
    generator := ⟨fun _ _ => c2Scenario, 0⟩
    evalDate := 0
    obsMode := ObsMode.Accurate
    asdAttached := false
    addScenDataIndices := []
    addScenDataCcys := []
    baseCcy := "EUR"
    iborFixing := fun _ _ => 0
    fxTriangulation := fun _ => 0 }

def c2MarketAfter : ScenarioSimMarket :=
  { c2Market with
    simData := [(c2Key1, 5), (c2Key2, 3)]
    numeraire := 1
    generator := ⟨fun _ _ => c2Scenario, 1⟩
    evalDate := 1 }

def c2Trace : List MEvent :=
  [MEvent.setEvalDate 1, MEvent.writeCell c2Key1 5, MEvent.writeCell c2Key1 5,
    MEvent.fixingsUpdate 1]

theorem claim_C2_counterexample :
    ¬ (∀ (m : ScenarioSimMarket) (d : Date) (m' : ScenarioSimMarket)
        (tr : List MEvent), m.update d = (Except.ok m', tr) →
        ∀ k ∈ keysOf m.simData, writesFor tr k = 1) := by
  intro h
  have h2 := h c2Market 1 c2MarketAfter c2Trace rfl c2Key2 (by decide)
  have h3 : writesFor c2Trace c2Key2 = 0 := by decide
  rw [h3] at h2
  exact absurd h2 (by decide)

/-- Claim C2 (amended): whenever `update(d)` returns without error and the
scenario key sequence is free of duplicates, every quote cell registered in
the bank receives exactly one value from that scenario during the call; with
duplicate scenario keys the checks can pass while a registered cell stays
stale. -/
theorem claim_C2_amended (m : ScenarioSimMarket) (d : Date)
    (m' : ScenarioSimMarket) (tr : List MEvent)
    (hnodup : (m.generator.next d).1.keys.Nodup)
    (h : m.update d = (Except.ok m', tr)) :
    ∀ k ∈ keysOf m.simData, writesFor tr k = 1 := by
  rcases update_ok_pair_inv m d m' tr h with ⟨hm, hc, _, htr⟩
  intro k hk
  set sc := (m.generator.next d).1 with hsc
  have hall : ∀ k2 ∈ sc.keys, k2 ∈ keysOf m.simData :=
    (updateLoop_missingPoint_eq_false_iff _ _).mp hm
  -- every scenario key matched, so the matched count is the full key count
  have hcount : (updateLoop sc m.simData).count = sc.keys.length := by
    rw [updateLoop_count]
    rw [List.countP_eq_length]
    intro k2 hk2
    simpa using hall k2 hk2
  have hlen : sc.keys.length = (keysOf m.simData).length := by
    have h1 : (keysOf m.simData).length = m.simData.length := by
      unfold keysOf; simp
    rw [h1, ← hc, hcount]
  -- the scenario key set therefore covers the whole bank key set
  have hsubset : sc.keys.toFinset ⊆ (keysOf m.simData).toFinset := by
    intro k2 hk2
    exact List.mem_toFinset.mpr (hall k2 (List.mem_toFinset.mp hk2))
  have hfin : sc.keys.toFinset = (keysOf m.simData).toFinset := by
    apply Finset.eq_of_subset_of_card_le hsubset
    calc (keysOf m.simData).toFinset.card
        ≤ (keysOf m.simData).length := List.toFinset_card_le _
      _ = sc.keys.length := hlen.symm
      _ = sc.keys.toFinset.card := (List.toFinset_card_of_nodup hnodup).symm
  have hkmem : k ∈ sc.keys := by
    have : k ∈ (keysOf m.simData).toFinset := List.mem_toFinset.mpr hk
    rw [← hfin] at this
    exact List.mem_toFinset.mp this
  -- the trace contains exactly one write for k
  rw [htr]
  rw [writesFor_append, writesFor_append, writesFor_append, writesFor_append,
    writesFor_append]
  rw [writesFor_preEvents, writesFor_evalDateEvents, writesFor_postEvents,
    writesFor_asdEvents]
  have hfix : writesFor [MEvent.fixingsUpdate d] k = 0 := by
    unfold writesFor; simp
  rw [hfix, writesFor_loopTrace sc m.simData k hk]
  rw [List.count_eq_one_of_mem hnodup hkmem]

def c2GoodScenario : Scenario := ⟨[c2Key1, c2Key2], fun _ => 7, 1⟩

def c2GoodMarket : ScenarioSimMarket :=
  { c2Market with generator := ⟨fun _ _ => c2GoodScenario, 0⟩ }

def c2GoodMarketAfter : ScenarioSimMarket :=
  { c2GoodMarket with
    simData := [(c2Key1, 7), (c2Key2, 7)]
    numeraire := 1
    generator := ⟨fun _ _ => c2GoodScenario, 1⟩
    evalDate := 1 }

def c2GoodTrace : List MEvent :=
  [MEvent.setEvalDate 1, MEvent.writeCell c2Key1 7, MEvent.writeCell c2Key2 7,
    MEvent.fixingsUpdate 1]

theorem claim_C2_witness :
    (c2GoodScenario.keys.Nodup ∧
      c2GoodMarket.update 1 = (Except.ok c2GoodMarketAfter, c2GoodTrace)) ∧
    writesFor c2GoodTrace c2Key1 = 1 := by
  refine ⟨⟨by decide, rfl⟩, ?_⟩
  exact claim_C2_amended c2GoodMarket 1 c2GoodMarketAfter c2GoodTrace
    (by decide) rfl c2Key1 (by decide)

/-! ### Claim C4 -/

theorem writeEntry_idem (sc : Scenario) (ks : List RiskFactorKey)
    (p : RiskFactorKey × Value) :
    writeEntry sc ks (writeEntry sc ks p) = writeEntry sc ks p := by
  unfold writeEntry
  by_cases h : p.1 ∈ ks <;> simp [h]

theorem map_writeEntry_idem (sc : Scenario) (ks : List RiskFactorKey)
    (bank : List (RiskFactorKey × Value)) :
    (bank.map (writeEntry sc ks)).map (writeEntry sc ks) =
      bank.map (writeEntry sc ks) := by
  rw [List.map_map]
  apply List.map_congr_left
  intro p _
  exact writeEntry_idem sc ks p

theorem keysOf_map_writeEntry (sc : Scenario) (ks : List RiskFactorKey)
    (bank : List (RiskFactorKey × Value)) :
    keysOf (bank.map (writeEntry sc ks)) = keysOf bank := by
  unfold keysOf
  rw [List.map_map]
  apply List.map_congr_left
  intro p _
  unfold writeEntry
  by_cases h : p.1 ∈ ks <;> simp [h]

/-- Claim C4: for a deterministic generator in its freshly-reset state,
running `update(d)`, then `reset()` on the generator, then `update(d)` again
for the same date leaves every registered quote cell (and the numeraire) with
values identical to those after the first call. -/
theorem claim_C4 (m : ScenarioSimMarket) (d : Date) (m1 : ScenarioSimMarket)
    (hpos : m.generator.pos = 0)
    (h1 : (m.update d).1 = Except.ok m1) :
    ∃ m2, (({ m1 with generator := m1.generator.reset }).update d).1 =
        Except.ok m2
      ∧ m2.simData = m1.simData ∧ m2.numeraire = m1.numeraire := by
  rcases update_ok_inv m d m1 h1 with ⟨hm, hc, hm1⟩
  -- both calls consume the scenario at stream position 0 for date d
  have hscen : ∀ g2 : ScenarioGenerator, g2.gen = m.generator.gen →
      g2.pos = 0 → (g2.next d).1 = (m.generator.next d).1 := by
    intro g2 hgen hp
    unfold ScenarioGenerator.next
    rw [hgen, hp, hpos]
  set sc := (m.generator.next d).1 with hsc
  set m1m : ScenarioSimMarket := { m1 with generator := m1.generator.reset }
    with hm1m
  have hgen1 : m1m.generator.gen = m.generator.gen := by
    rw [hm1m, hm1]
    rfl
  have hpos1 : m1m.generator.pos = 0 := rfl
  have hsc1 : (m1m.generator.next d).1 = sc := hscen m1m.generator hgen1 hpos1
  have hbank1 : m1m.simData = m.simData.map (writeEntry sc sc.keys) := by
    rw [hm1m, hm1]
    exact updateLoop_bank sc m.simData
  have hkeys1 : keysOf m1m.simData = keysOf m.simData := by
    rw [hbank1]
    exact keysOf_map_writeEntry sc sc.keys m.simData
  have hlen1 : m1m.simData.length = m.simData.length := by
    rw [hbank1]
    simp
  -- the second update passes the same checks
  have hm2 : (updateLoop (m1m.generator.next d).1 m1m.simData).missingPoint
      = false := by
    rw [hsc1, updateLoop_missingPoint, hkeys1,
      ← updateLoop_missingPoint sc m.simData]
    exact hm
  have hc2 : (updateLoop (m1m.generator.next d).1 m1m.simData).count
      = m1m.simData.length := by
    rw [hsc1, updateLoop_count, hkeys1, ← updateLoop_count sc m.simData,
      hlen1]
    exact hc
  refine ⟨_, by rw [update_eq_of_ok m1m d hm2 hc2], ?_, ?_⟩
  · dsimp only
    rw [hsc1, updateLoop_bank, hbank1]
    rw [map_writeEntry_idem]
  · dsimp only
    rw [hsc1, hm1]

def c4Key : RiskFactorKey := ⟨KeyType.IndexCurve, "EUR-EURIBOR-6M", 2⟩

def c4Scenario : Scenario := ⟨[c4Key], fun _ => 9, 2⟩

def c4Market : ScenarioSimMarket :=
  { simData := [(c4Key, 4)]
    numeraire := 1
    generator := ⟨fun _ _ => c4Scenario, 0⟩
    evalDate := 0
    obsMode := ObsMode.Disable
    asdAttached := false
    addScenDataIndices := []
    addScenDataCcys := []
    baseCcy := "EUR"
    iborFixing := fun _ _ => 0
    fxTriangulation := fun _ => 0 }

def c4MarketAfter : ScenarioSimMarket :=
  { c4Market with
    simData := [(c4Key, 9)]
    numeraire := 2
    generator := ⟨fun _ _ => c4Scenario, 1⟩
    evalDate := 3 }

theorem claim_C4_witness :
    ∃ m2, (({ c4MarketAfter with
        generator := c4MarketAfter.generator.reset }).update 3).1 =
          Except.ok m2
      ∧ m2.simData = c4MarketAfter.simData
      ∧ m2.numeraire = c4MarketAfter.numeraire :=
  claim_C4 c4Market 3 c4MarketAfter rfl rfl

/-! ### Claim C6 -/

/-- Recognizer for aggregation-scenario-data sink events. -/
def isAsdEvent : MEvent → Bool
  | MEvent.asdSetIndexFixing _ _ => true
  | MEvent.asdSetFXSpot _ _ => true
  | MEvent.asdSetNumeraire _ => true
  | MEvent.asdNext => true
  | _ => false

/-- Every event emitted by the update key loop is a quote-cell write. -/
theorem loopTrace_mem (sc : Scenario) (bank : List (RiskFactorKey × Value)) :
    ∀ e ∈ (updateLoop sc bank).trace, ∃ k v, e = MEvent.writeCell k v := by
  rw [updateLoop_trace]
  intro e he
  rcases List.mem_filterMap.mp he with ⟨k, _, hk⟩
  by_cases h : k ∈ keysOf bank
  · rw [if_pos h] at hk
    exact ⟨k, sc.get k, (Option.some.inj hk).symm⟩
  · rw [if_neg h] at hk
    cases hk

theorem preEvents_not_asd (m : ScenarioSimMarket) :
    ∀ e ∈ preEvents m, isAsdEvent e = false := by
  unfold preEvents
  cases m.obsMode <;> simp [isAsdEvent]

theorem evalDateEvents_not_asd (m : ScenarioSimMarket) (d : Date) :
    ∀ e ∈ evalDateEvents m d, isAsdEvent e = false := by
  unfold evalDateEvents
  by_cases h : d ≠ m.evalDate
  · simp [h, isAsdEvent]
  · by_cases h2 : m.obsMode = ObsMode.Unregister <;>
      simp [h, h2, isAsdEvent]

theorem postEvents_not_asd (m : ScenarioSimMarket) :
    ∀ e ∈ postEvents m, isAsdEvent e = false := by
  unfold postEvents
  cases m.obsMode <;> simp [isAsdEvent]

/-- Claim C6: on every successful `update(d)` with an attached
aggregation-data sink, after all quote cells are set the trace ends with the
recording of one index fixing per configured additional index, one FX spot
per configured additional currency other than the base currency, and the
numeraire taken from the scenario, followed only then by the advance of the
sink to the next slot; no sink event occurs earlier in the call. -/
theorem claim_C6 (m : ScenarioSimMarket) (d : Date) (m' : ScenarioSimMarket)
    (tr : List MEvent) (hasd : m.asdAttached = true)
    (h : m.update d = (Except.ok m', tr)) :
    ∃ pre, tr = pre
        ++ (m.addScenDataIndices.map (fun i =>
            MEvent.asdSetIndexFixing i (m.iborFixing i d)))
        ++ ((m.addScenDataCcys.filter (fun c => decide (c ≠ m.baseCcy))).map
            (fun c => MEvent.asdSetFXSpot c
              (fxSpotValue m m'.simData (c ++ m.baseCcy))))
        ++ [MEvent.asdSetNumeraire (m.generator.next d).1.numeraire,
            MEvent.asdNext]
      ∧ (∀ e ∈ pre, isAsdEvent e = false)
      ∧ m'.numeraire = (m.generator.next d).1.numeraire := by
  rcases update_ok_pair_inv m d m' tr h with ⟨_, _, hm', htr⟩
  refine ⟨preEvents m ++ evalDateEvents m d
      ++ (updateLoop (m.generator.next d).1 m.simData).trace
      ++ postEvents m ++ [MEvent.fixingsUpdate d], ?_, ?_, ?_⟩
  · rw [htr]
    unfold asdEvents
    rw [if_pos hasd]
    have hbank : m'.simData =
        (updateLoop (m.generator.next d).1 m.simData).bank := by rw [hm']
    rw [hbank]
    simp [List.append_assoc]
  · intro e he
    simp only [List.mem_append] at he
    rcases he with ((((h1 | h2) | h3) | h4) | h5)
    · exact preEvents_not_asd m e h1
    · exact evalDateEvents_not_asd m d e h2
    · rcases loopTrace_mem _ _ e h3 with ⟨k, v, rfl⟩
      rfl
    · exact postEvents_not_asd m e h4
    · simp at h5
      rw [h5]
      rfl
  · rw [hm']

def c6Key : RiskFactorKey := ⟨KeyType.FXSpot, "USDEUR", 0⟩

def c6Scenario : Scenario := ⟨[c6Key], fun _ => 3, 7⟩

def c6Market : ScenarioSimMarket :=
  { simData := [(c6Key, 1)]
    numeraire := 1
    generator := ⟨fun _ _ => c6Scenario, 0⟩
    evalDate := 0
    obsMode := ObsMode.Accurate
    asdAttached := true
    addScenDataIndices := ["EUR-EURIBOR-3M"]
    addScenDataCcys := ["USD", "EUR"]
    baseCcy := "EUR"
    iborFixing := fun _ _ => 11
    fxTriangulation := fun _ => 13 }

def c6MarketAfter : ScenarioSimMarket :=
  { c6Market with
    simData := [(c6Key, 3)]
    numeraire := 7
    generator := ⟨fun _ _ => c6Scenario, 1⟩
    evalDate := 2 }

def c6Trace : List MEvent :=
  [MEvent.setEvalDate 2, MEvent.writeCell c6Key 3, MEvent.fixingsUpdate 2,
    MEvent.asdSetIndexFixing "EUR-EURIBOR-3M" 11, MEvent.asdSetFXSpot "USD" 3,
    MEvent.asdSetNumeraire 7, MEvent.asdNext]

theorem claim_C6_witness :
    ∃ pre, c6Trace = pre
        ++ (c6Market.addScenDataIndices.map (fun i =>
            MEvent.asdSetIndexFixing i (c6Market.iborFixing i 2)))
        ++ ((c6Market.addScenDataCcys.filter
              (fun c => decide (c ≠ c6Market.baseCcy))).map
            (fun c => MEvent.asdSetFXSpot c
              (fxSpotValue c6Market c6MarketAfter.simData
                (c ++ c6Market.baseCcy))))
        ++ [MEvent.asdSetNumeraire (c6Market.generator.next 2).1.numeraire,
            MEvent.asdNext]
      ∧ (∀ e ∈ pre, isAsdEvent e = false)
      ∧ c6MarketAfter.numeraire = (c6Market.generator.next 2).1.numeraire :=
  claim_C6 c6Market 2 c6MarketAfter c6Trace rfl rfl

/-! ### Claim C7 -/

/-- Modelled from the spec: the state of the QuantLib ObservableSettings
notification switch.  `disableUpdates` (either flavour) suspends
recompute-on-write, `enableUpdates` re-enables it; all other events leave the
switch unchanged. -/
def notifyStep (b : Bool) (e : MEvent) : Bool :=
  match e with
  | MEvent.disableUpdates _ => false
  | MEvent.enableUpdates => true
  | _ => b

/-- Modelled from the spec: a quote-cell write triggers a recompute of
observing term structures exactly when the notification switch is enabled at
that point.  This predicate holds when no write in the trace happens while
the switch is enabled, i.e. no derived term structure recomputes during the
batch of cell writes. -/
def noWriteWhileEnabled : Bool → List MEvent → Bool
  | _, [] => true
  | b, e :: rest =>
      (match e with
        | MEvent.writeCell _ _ => !b
        | _ => true)
        && noWriteWhileEnabled (notifyStep b e) rest

theorem noWriteWhileEnabled_nil (b : Bool) :
    noWriteWhileEnabled b [] = true := rfl

theorem noWriteWhileEnabled_cons (b : Bool) (e : MEvent)
    (rest : List MEvent) :
    noWriteWhileEnabled b (e :: rest) =
      ((match e with
        | MEvent.writeCell _ _ => !b
        | _ => true)
        && noWriteWhileEnabled (notifyStep b e) rest) := rfl

theorem noWriteWhileEnabled_append (l1 l2 : List MEvent) :
    ∀ b, noWriteWhileEnabled b (l1 ++ l2) =
      (noWriteWhileEnabled b l1 && noWriteWhileEnabled
        (l1.foldl notifyStep b) l2) := by
  induction l1 with
  | nil =>
      intro b
      simp [noWriteWhileEnabled_nil]
  | cons e l1 ih =>
      intro b
      rw [List.cons_append, noWriteWhileEnabled_cons, noWriteWhileEnabled_cons,
        ih (notifyStep b e), List.foldl_cons, Bool.and_assoc]

theorem noWriteWhileEnabled_of_no_writes (l : List MEvent)
    (hnw : ∀ e ∈ l, ∀ k v, e ≠ MEvent.writeCell k v) :
    ∀ b, noWriteWhileEnabled b l = true := by
  induction l with
  | nil => intro b; rfl
  | cons e l ih =>
      intro b
      rw [noWriteWhileEnabled_cons]
      have h2 := ih (fun e2 he2 => hnw e2 (List.mem_cons_of_mem _ he2))
        (notifyStep b e)
      rw [h2, Bool.and_true]
      cases e
      case writeCell k v =>
        exact absurd rfl
          (hnw (MEvent.writeCell k v) (List.mem_cons_self _ _) k v)
      all_goals rfl

theorem noWriteWhileEnabled_writes (l : List MEvent)
    (hw : ∀ e ∈ l, ∃ k v, e = MEvent.writeCell k v) :
    noWriteWhileEnabled false l = true ∧ l.foldl notifyStep false = false := by
  induction l with
  | nil => exact ⟨rfl, rfl⟩
  | cons e l ih =>
      rcases hw e (by simp) with ⟨k, v, rfl⟩
      have hrest := ih (fun e2 he2 => hw e2 (List.mem_cons_of_mem _ he2))
      refine ⟨?_, ?_⟩
      · unfold noWriteWhileEnabled
        simpa [notifyStep] using hrest.1
      · simpa [notifyStep] using hrest.2

/-- Events that touch neither the notification switch nor a quote cell. -/
theorem foldl_notifyStep_neutral (l : List MEvent)
    (hn : ∀ e ∈ l, ∀ b2 : Bool, notifyStep b2 e = b2) :
    ∀ b, l.foldl notifyStep b = b := by
  induction l with
  | nil => intro b; rfl
  | cons e l ih =>
      intro b
      rw [List.foldl_cons, hn e (by simp) b]
      exact ih (fun e2 he2 => hn e2 (List.mem_cons_of_mem _ he2)) b

theorem evalDateEvents_neutral (m : ScenarioSimMarket) (d : Date) :
    ∀ e ∈ evalDateEvents m d, ∀ b : Bool, notifyStep b e = b := by
  unfold evalDateEvents
  by_cases h : d ≠ m.evalDate
  · simp [h, notifyStep]
  · by_cases h2 : m.obsMode = ObsMode.Unregister <;>
      simp [h, h2, notifyStep]

theorem evalDateEvents_no_writes (m : ScenarioSimMarket) (d : Date) :
    ∀ e ∈ evalDateEvents m d, ∀ k v, e ≠ MEvent.writeCell k v := by
  unfold evalDateEvents
  by_cases h : d ≠ m.evalDate
  · simp [h]
  · by_cases h2 : m.obsMode = ObsMode.Unregister <;> simp [h, h2]

theorem asdEvents_no_writes (m : ScenarioSimMarket)
    (bank : List (RiskFactorKey × Value)) (d : Date) (num : Value) :
    ∀ e ∈ asdEvents m bank d num, ∀ k v, e ≠ MEvent.writeCell k v := by
  unfold asdEvents
  by_cases h : m.asdAttached
  · simp only [h, if_pos]
    intro e he k v
    simp only [List.mem_append, List.mem_map] at he
    rcases he with ((⟨i, _, rfl⟩ | ⟨c, _, rfl⟩) | hrest)
    · simp
    · simp
    · simp at hrest
      rcases hrest with rfl | rfl <;> simp
  · simp [h]

theorem refresh_not_mem_loopTrace (sc : Scenario)
    (bank : List (RiskFactorKey × Value)) :
    MEvent.refresh ∉ (updateLoop sc bank).trace := by
  intro hmem
  rcases loopTrace_mem sc bank MEvent.refresh hmem with ⟨k, v, hkv⟩
  cases hkv

theorem refresh_not_mem_evalDateEvents (m : ScenarioSimMarket) (d : Date) :
    MEvent.refresh ∉ evalDateEvents m d := by
  unfold evalDateEvents
  by_cases h : d ≠ m.evalDate
  · simp [h]
  · by_cases h2 : m.obsMode = ObsMode.Unregister <;> simp [h, h2]

theorem refresh_not_mem_asdEvents (m : ScenarioSimMarket)
    (bank : List (RiskFactorKey × Value)) (d : Date) (num : Value) :
    MEvent.refresh ∉ asdEvents m bank d num := by
  unfold asdEvents
  by_cases h : m.asdAttached
  · simp only [h, if_pos]
    intro hmem
    simp only [List.mem_append, List.mem_map] at hmem
    rcases hmem with ((⟨i, _, hi⟩ | ⟨c, _, hc⟩) | hrest)
    · cases hi
    · cases hc
    · simp at hrest
  · simp [h]

/-- Common shape argument: a trace that starts by disabling updates, then
performs only notification-neutral non-write events, then the batch of cell
writes, then a tail that is itself write-free from a disabled state, never
writes a cell while notifications are enabled. -/
theorem nwwe_update_shape (x : Bool) (ev lt tail : List MEvent)
    (hevw : ∀ e ∈ ev, ∀ k v, e ≠ MEvent.writeCell k v)
    (hevn : ∀ e ∈ ev, ∀ b : Bool, notifyStep b e = b)
    (hlt : ∀ e ∈ lt, ∃ k v, e = MEvent.writeCell k v)
    (htail : noWriteWhileEnabled false tail = true) :
    noWriteWhileEnabled true
      (MEvent.disableUpdates x :: (ev ++ (lt ++ tail))) = true := by
  rw [noWriteWhileEnabled_cons]
  dsimp only [notifyStep]
  rw [noWriteWhileEnabled_append, noWriteWhileEnabled_of_no_writes ev hevw,
    foldl_notifyStep_neutral ev hevn, noWriteWhileEnabled_append,
    (noWriteWhileEnabled_writes lt hlt).1,
    (noWriteWhileEnabled_writes lt hlt).2, htail]
  rfl

/-! ### Claim C7 -/

/-- Claim C7: on a successful `update`, in Disable mode the trace starts by
suspending observer notifications, applies all scenario values with no
recompute triggered in between, performs exactly one refresh pass, re-enables
notifications, and only then updates historical fixings; in Defer mode
notifications are suspended and later re-enabled with no explicit refresh
pass; under both modes no quote-cell write happens while notifications are
enabled, so derived term structures never recompute during the batch of cell
writes. -/
theorem claim_C7 (m : ScenarioSimMarket) (d : Date) (m' : ScenarioSimMarket)
    (tr : List MEvent) (h : m.update d = (Except.ok m', tr)) :
    (m.obsMode = ObsMode.Disable →
      tr = MEvent.disableUpdates false
          :: (evalDateEvents m d
            ++ ((updateLoop (m.generator.next d).1 m.simData).trace
            ++ (MEvent.refresh :: MEvent.enableUpdates
                :: MEvent.fixingsUpdate d
                :: asdEvents m
                  (updateLoop (m.generator.next d).1 m.simData).bank d
                  (m.generator.next d).1.numeraire)))
        ∧ tr.count MEvent.refresh = 1
        ∧ noWriteWhileEnabled true tr = true)
    ∧ (m.obsMode = ObsMode.Defer →
      tr = MEvent.disableUpdates true
          :: (evalDateEvents m d
            ++ ((updateLoop (m.generator.next d).1 m.simData).trace
            ++ (MEvent.enableUpdates :: MEvent.fixingsUpdate d
                :: asdEvents m
                  (updateLoop (m.generator.next d).1 m.simData).bank d
                  (m.generator.next d).1.numeraire)))
        ∧ MEvent.refresh ∉ tr
        ∧ noWriteWhileEnabled true tr = true) := by
  rcases update_ok_pair_inv m d m' tr h with ⟨_, _, _, htr⟩
  set sc := (m.generator.next d).1 with hsc
  set lt := (updateLoop sc m.simData).trace with hlt
  set bk := (updateLoop sc m.simData).bank with hbk
  set ad := asdEvents m bk d sc.numeraire with had
  have hev0 : (evalDateEvents m d).count MEvent.refresh = 0 :=
    List.count_eq_zero.mpr (refresh_not_mem_evalDateEvents m d)
  have hlt0 : lt.count MEvent.refresh = 0 :=
    List.count_eq_zero.mpr (refresh_not_mem_loopTrace sc m.simData)
  have had0 : ad.count MEvent.refresh = 0 :=
    List.count_eq_zero.mpr (refresh_not_mem_asdEvents m bk d sc.numeraire)
  constructor
  · intro hdis
    have hpre : preEvents m = [MEvent.disableUpdates false] := by
      unfold preEvents
      rw [hdis]
    have hpost : postEvents m = [MEvent.refresh, MEvent.enableUpdates] := by
      unfold postEvents
      rw [hdis]
    have htr2 : tr = MEvent.disableUpdates false
        :: (evalDateEvents m d
          ++ (lt ++ (MEvent.refresh :: MEvent.enableUpdates
              :: MEvent.fixingsUpdate d :: ad))) := by
      rw [htr, hpre, hpost]
      simp [List.append_assoc]
    refine ⟨htr2, ?_, ?_⟩
    · rw [htr2]
      rw [List.count_cons, List.count_append, List.count_append,
        List.count_cons, List.count_cons, List.count_cons,
        hev0, hlt0, had0]
      rfl
    · rw [htr2]
      apply nwwe_update_shape
      · exact evalDateEvents_no_writes m d
      · exact evalDateEvents_neutral m d
      · exact loopTrace_mem sc m.simData
      · rw [noWriteWhileEnabled_cons, noWriteWhileEnabled_cons,
          noWriteWhileEnabled_cons]
        dsimp only [notifyStep]
        rw [noWriteWhileEnabled_of_no_writes ad
          (asdEvents_no_writes m bk d sc.numeraire)]
        rfl
  · intro hdef
    have hpre : preEvents m = [MEvent.disableUpdates true] := by
      unfold preEvents
      rw [hdef]
    have hpost : postEvents m = [MEvent.enableUpdates] := by
      unfold postEvents
      rw [hdef]
    have htr2 : tr = MEvent.disableUpdates true
        :: (evalDateEvents m d
          ++ (lt ++ (MEvent.enableUpdates
              :: MEvent.fixingsUpdate d :: ad))) := by
      rw [htr, hpre, hpost]
      simp [List.append_assoc]
    refine ⟨htr2, ?_, ?_⟩
    · rw [htr2]
      intro hmem
      rcases List.mem_cons.mp hmem with h1 | hmem2
      · cases h1
      rcases List.mem_append.mp hmem2 with h2 | hmem3
      · exact refresh_not_mem_evalDateEvents m d h2
      rcases List.mem_append.mp hmem3 with h3 | hmem4
      · exact refresh_not_mem_loopTrace sc m.simData h3
      rcases List.mem_cons.mp hmem4 with h4 | hmem5
      · cases h4
      rcases List.mem_cons.mp hmem5 with h5 | hmem6
      · cases h5
      exact refresh_not_mem_asdEvents m bk d sc.numeraire hmem6
    · rw [htr2]
      apply nwwe_update_shape
      · exact evalDateEvents_no_writes m d
      · exact evalDateEvents_neutral m d
      · exact loopTrace_mem sc m.simData
      · rw [noWriteWhileEnabled_cons, noWriteWhileEnabled_cons]
        dsimp only [notifyStep]
        rw [noWriteWhileEnabled_of_no_writes ad
          (asdEvents_no_writes m bk d sc.numeraire)]
        rfl

def c7Key : RiskFactorKey := ⟨KeyType.EQSpot, "SP5", 0⟩

def c7Scenario : Scenario := ⟨[c7Key], fun _ => 2, 1⟩

def c7Market : ScenarioSimMarket :=
  { simData := [(c7Key, 1)]
    numeraire := 1
    generator := ⟨fun _ _ => c7Scenario, 0⟩
    evalDate := 0
    obsMode := ObsMode.Disable
    asdAttached := false
    addScenDataIndices := []
    addScenDataCcys := []
    baseCcy := "EUR"
    iborFixing := fun _ _ => 0
    fxTriangulation := fun _ => 0 }

def c7MarketAfter : ScenarioSimMarket :=
  { c7Market with
    simData := [(c7Key, 2)]
    numeraire := 1
    generator := ⟨fun _ _ => c7Scenario, 1⟩
    evalDate := 4 }

def c7Trace : List MEvent :=
  [MEvent.disableUpdates false, MEvent.setEvalDate 4,
    MEvent.writeCell c7Key 2, MEvent.refresh, MEvent.enableUpdates,
    MEvent.fixingsUpdate 4]

theorem claim_C7_witness :
    c7Trace = MEvent.disableUpdates false
        :: (evalDateEvents c7Market 4
          ++ ((updateLoop (c7Market.generator.next 4).1 c7Market.simData).trace
          ++ (MEvent.refresh :: MEvent.enableUpdates
              :: MEvent.fixingsUpdate 4
              :: asdEvents c7Market
                (updateLoop (c7Market.generator.next 4).1 c7Market.simData).bank
                4 (c7Market.generator.next 4).1.numeraire)))
      ∧ c7Trace.count MEvent.refresh = 1
      ∧ noWriteWhileEnabled true c7Trace = true :=
  (claim_C7 c7Market 4 c7MarketAfter c7Trace rfl).1 rfl

/-! ### The ScenarioSimMarket constructor (scenariosimmarket.cpp lines 70
to 627) -/

/-- `ReactionToTimeDecay` (QuantExt), the two supported decay policies. -/
inductive ReactionToTimeDecay
  | ForwardForwardVariance
  | ConstantVariance
  deriving DecidableEq, Repr

/-- `parseDecayMode` (scenariosimmarket.cpp lines 57 to 67): maps exactly
"ForwardVariance" and "ConstantVariance", and fails on any other string. -/
def parseDecayMode (s : String) : Except String ReactionToTimeDecay :=
  if s = "ForwardVariance" then Except.ok ReactionToTimeDecay.ForwardForwardVariance
  else if s = "ConstantVariance" then Except.ok ReactionToTimeDecay.ConstantVariance
  else Except.error ("Decay mode \"" ++ s ++ "\" not recognized")

/-- The inline-getter parameter class used by the constructor in this
revision (scenariosimmarketparameters.hpp): plain lists of in-scope
entities, tenor grids and decay-mode strings. -/
structure SimMarketParams where
  baseCcy : String
  ccys : List String
  yieldCurveNames : List String
  yieldCurveTenors : List Period
  indices : List String
  fxCcyPairs : List String
  securities : List String
  swapVolCcys : List String
  swapVolExpiries : List Period
  swapVolTerms : List Period
  simulateSwapVols : Bool
  swapVolDecayMode : String
  capFloorVolCcys : List String
  capFloorVolExpiries : List Period
  capFloorVolStrikes : List Value
  simulateCapFloorVols : Bool
  capFloorVolDecayMode : String
  defaultNames : List String
  defaultTenors : List Period
  fxVolCcyPairs : List String
  fxVolExpiries : List Period
  simulateFXVols : Bool
  fxVolDecayMode : String
  equityNames : List String
  equityTenors : List Period
  eqVolNames : List String
  eqVolExpiries : List Period
  simulateEQVols : Bool
  eqVolDecayMode : String
  additionalScenarioDataIndices : List String
  additionalScenarioDataCcys : List String

/-- Abstraction of the reads the constructor performs against the initial
("today") market snapshot: the seed value for each quote cell. -/
structure InitMarket where
  fxSpotVal : String → Value
  discountVal : String → Nat → Value
  yieldVal : String → Nat → Value
  indexVal : String → Nat → Value
  swaptionVolVal : String → Nat → Value
  capletVolVal : String → Nat → Value
  fxVolVal : String → Nat → Value
  eqSpotVal : String → Value
  eqVolVal : String → Nat → Value

/-- One pillar cell per index `i < n` for a curve of `name` in category
`kt`, the seed value taken from the initial market. -/
def curveCells (kt : KeyType) (name : String) (n : Nat) (v : Nat → Value) :
    List (RiskFactorKey × Value) :=
  (List.range n).map (fun i => (⟨kt, name, i⟩, v i))

/-- `QL_REQUIRE(parameters->yieldCurveTenors().front() > 0 * Days, ...)`.
Calling `front()` on an empty vector is undefined behaviour in the source;
it is modelled as a construction failure. -/
def tenorFrontCheck (tenors : List Period) (msg : String) :
    Except String Unit :=
  match tenors with
  | [] => Except.error ("front() called on empty tenor list")
  | t :: _ => if 0 < t then Except.ok () else Except.error msg

/-- Lines 84 to 92: one FXSpot cell per configured FX currency pair. -/
def fxSpotSection (p : SimMarketParams) (im : InitMarket) :
    List (RiskFactorKey × Value) :=
  p.fxCcyPairs.map (fun pr => (⟨KeyType.FXSpot, pr, 0⟩, im.fxSpotVal pr))

/-- Lines 106 to 156: one DiscountCurve cell per currency and pillar. -/
def discountSection (p : SimMarketParams) (im : InitMarket) :
    List (RiskFactorKey × Value) :=
  p.ccys.flatMap (fun ccy =>
    curveCells KeyType.DiscountCurve ccy p.yieldCurveTenors.length
      (im.discountVal ccy))

/-- Lines 158 to 207: one YieldCurve cell per benchmark curve and pillar. -/
def benchmarkSection (p : SimMarketParams) (im : InitMarket) :
    List (RiskFactorKey × Value) :=
  p.yieldCurveNames.flatMap (fun name =>
    curveCells KeyType.YieldCurve name p.yieldCurveTenors.length
      (im.yieldVal name))

/-- Lines 218 to 279: one IndexCurve cell per ibor index and pillar. -/
def indexSection (p : SimMarketParams) (im : InitMarket) :
    List (RiskFactorKey × Value) :=
  p.indices.flatMap (fun ind =>
    curveCells KeyType.IndexCurve ind p.yieldCurveTenors.length
      (im.indexVal ind))

/-- Lines 293 to 372: per swap-vol currency, either a simulated expiry-by-
term grid of SwaptionVolatility cells, or (deterministic decay) no cells but
a decay-mode string that must parse. -/
def swapVolSection (p : SimMarketParams) (im : InitMarket) :
    Except String (List (RiskFactorKey × Value)) :=
  p.swapVolCcys.foldlM (fun acc ccy =>
    if p.simulateSwapVols then
      Except.ok (acc ++ curveCells KeyType.SwaptionVolatility ccy
        (p.swapVolExpiries.length * p.swapVolTerms.length)
        (im.swaptionVolVal ccy))
    else do
      let _ ← parseDecayMode p.swapVolDecayMode
      Except.ok acc) []

/-- Lines 374 to 429: per cap/floor currency, either a simulated expiry-by-
strike grid of OptionletVolatility cells, or a parsed decay mode. -/
def capFloorVolSection (p : SimMarketParams) (im : InitMarket) :
    Except String (List (RiskFactorKey × Value)) :=
  p.capFloorVolCcys.foldlM (fun acc ccy =>
    if p.simulateCapFloorVols then
      Except.ok (acc ++ curveCells KeyType.OptionletVolatility ccy
        (p.capFloorVolExpiries.length * p.capFloorVolStrikes.length)
        (im.capletVolVal ccy))
    else do
      let _ ← parseDecayMode p.capFloorVolDecayMode
      Except.ok acc) []

/-- Lines 430 to 468: default curves register no quote cells, but the tenor
grid is checked per name. -/
def defaultCurvesSection (p : SimMarketParams) : Except String Unit :=
  p.defaultNames.foldlM (fun _ _ =>
    tenorFrontCheck p.defaultTenors
      "default curve tenors must not include t=0") ()

/-- Lines 470 to 525: per FX-vol currency pair, either simulated
FXVolatility pillar cells or a parsed decay mode, then the 6-character
currency-pair check. -/
def fxVolSection (p : SimMarketParams) (im : InitMarket) :
    Except String (List (RiskFactorKey × Value)) :=
  p.fxVolCcyPairs.foldlM (fun acc pr => do
    let cells ← if p.simulateFXVols then
        Except.ok (curveCells KeyType.FXVolatility pr p.fxVolExpiries.length
          (im.fxVolVal pr))
      else do
        let _ ← parseDecayMode p.fxVolDecayMode
        Except.ok []
    if pr.length = 6 then Except.ok (acc ++ cells)
    else Except.error ("Invalid Ccy pair " ++ pr)) []

/-- Lines 527 to 539: one EQSpot cell per equity name. -/
def equitySpotSection (p : SimMarketParams) (im : InitMarket) :
    List (RiskFactorKey × Value) :=
  p.equityNames.map (fun eq2 => (⟨KeyType.EQSpot, eq2, 0⟩, im.eqSpotVal eq2))

/-- Lines 541 to 546: the equity tenor grid is validated only when equity
names are configured. -/
def equityTenorCheck (p : SimMarketParams) : Except String Unit :=
  if p.equityNames.length > 0 then
    match p.equityTenors with
    | [] => Except.error "Equity curve tenor grid not defined"
    | t :: _ =>
        if 0 < t then Except.ok ()
        else Except.error "equity curve tenors must not include t=0"
  else Except.ok ()

/-- Lines 583 to 626: per equity-vol name, either simulated EQVolatility
pillar cells or a parsed decay mode. -/
def eqVolSection (p : SimMarketParams) (im : InitMarket) :
    Except String (List (RiskFactorKey × Value)) :=
  p.eqVolNames.foldlM (fun acc eq2 =>
    if p.simulateEQVols then
      Except.ok (acc ++ curveCells KeyType.EQVolatility eq2
        p.eqVolExpiries.length (im.eqVolVal eq2))
    else do
      let _ ← parseDecayMode p.eqVolDecayMode
      Except.ok acc) []

/-- The quote bank built by the `ScenarioSimMarket` constructor: cells are
registered section by section in source order; a failing check or an
unparseable decay-mode string aborts construction. -/
def buildSimData (p : SimMarketParams) (im : InitMarket) :
    Except String (List (RiskFactorKey × Value)) := do
  let fx := fxSpotSection p im
  let _ ← tenorFrontCheck p.yieldCurveTenors
    "yield curve tenors must not include t=0"
  let disc := discountSection p im
  let bench := benchmarkSection p im
  let idx := indexSection p im
  let swv ← swapVolSection p im
  let cfv ← capFloorVolSection p im
  let _ ← defaultCurvesSection p
  let fxv ← fxVolSection p im
  let eqs := equitySpotSection p im
  let _ ← equityTenorCheck p
  let eqv ← eqVolSection p im
  Except.ok (fx ++ disc ++ bench ++ idx ++ swv ++ cfv ++ fxv ++ eqs ++ eqv)

/-! ### Claim C9 -/

/-- C9 fixture: a parameter set whose only volatility entity is one
deterministic-decay swaption-vol currency with decay-mode string `s`. -/
def c9Params (s : String) : SimMarketParams :=
  { baseCcy := "EUR"
    ccys := []
    yieldCurveNames := []
    yieldCurveTenors := [365]
    indices := []
    fxCcyPairs := []
    securities := []
    swapVolCcys := ["EUR"]
    swapVolExpiries := []
    swapVolTerms := []
    simulateSwapVols := false
    swapVolDecayMode := s
    capFloorVolCcys := []
    capFloorVolExpiries := []
    capFloorVolStrikes := []
    simulateCapFloorVols := false
    capFloorVolDecayMode := "ConstantVariance"
    defaultNames := []
    defaultTenors := []
    fxVolCcyPairs := []
    fxVolExpiries := []
    simulateFXVols := false
    fxVolDecayMode := "ConstantVariance"
    equityNames := []
    equityTenors := []
    eqVolNames := []
    eqVolExpiries := []
    simulateEQVols := false
    eqVolDecayMode := "ConstantVariance"
    additionalScenarioDataIndices := []
    additionalScenarioDataCcys := [] }

theorem buildSimData_c9 (s : String) (e : String) (im : InitMarket)
    (hp : parseDecayMode s = Except.error e) :
    buildSimData (c9Params s) im = Except.error e := by
  have hswap : swapVolSection (c9Params s) im = Except.error e := by
    unfold swapVolSection
    dsimp only [c9Params]
    rw [List.foldlM_cons]
    simp only [Bool.false_eq_true, if_false]
    rw [hp]
    rfl
  unfold buildSimData
  rw [hswap]
  rfl

/-- Claim C9: `parseDecayMode` maps exactly "ForwardVariance" to the
forward-forward-variance policy and exactly "ConstantVariance" to the
constant-variance policy, fails on every other string, and such a failure
aborts market construction. -/
theorem claim_C9 :
    parseDecayMode "ForwardVariance" =
      Except.ok ReactionToTimeDecay.ForwardForwardVariance
    ∧ parseDecayMode "ConstantVariance" =
      Except.ok ReactionToTimeDecay.ConstantVariance
    ∧ (∀ s : String, s ≠ "ForwardVariance" → s ≠ "ConstantVariance" →
        parseDecayMode s =
          Except.error ("Decay mode \"" ++ s ++ "\" not recognized"))
    ∧ (∀ s : String, s ≠ "ForwardVariance" → s ≠ "ConstantVariance" →
        ∀ im : InitMarket, buildSimData (c9Params s) im =
          Except.error ("Decay mode \"" ++ s ++ "\" not recognized")) := by
  refine ⟨rfl, rfl, ?_, ?_⟩
  · intro s h1 h2
    unfold parseDecayMode
    rw [if_neg h1, if_neg h2]
  · intro s h1 h2 im
    apply buildSimData_c9
    unfold parseDecayMode
    rw [if_neg h1, if_neg h2]

def c9InitMarket : InitMarket :=
  { fxSpotVal := fun _ => 1
    discountVal := fun _ _ => 1
    yieldVal := fun _ _ => 1
    indexVal := fun _ _ => 1
    swaptionVolVal := fun _ _ => 1
    capletVolVal := fun _ _ => 1
    fxVolVal := fun _ _ => 1
    eqSpotVal := fun _ => 1
    eqVolVal := fun _ _ => 1 }

theorem claim_C9_witness :
    parseDecayMode "LinearVariance" =
      Except.error ("Decay mode \"" ++ "LinearVariance" ++ "\" not recognized")
    ∧ buildSimData (c9Params "LinearVariance") c9InitMarket =
      Except.error
        ("Decay mode \"" ++ "LinearVariance" ++ "\" not recognized") :=
  ⟨claim_C9.2.2.1 "LinearVariance" (by decide) (by decide),
    claim_C9.2.2.2 "LinearVariance" (by decide) (by decide) c9InitMarket⟩

/-! ### Claim C5 -/

/-- Claim C5: a parameter set declaring zero currencies and zero indices
(and, with them, no other quoted entities) builds successfully with an empty
quote bank, provided its yield-curve tenor grid passes the positivity check;
and `update` on a market with an empty bank fed an empty scenario succeeds
trivially, 0 keys matched against 0 registered cells. -/
theorem claim_C5 (p : SimMarketParams) (im : InitMarket)
    (hccys : p.ccys = []) (hind : p.indices = [])
    (hfx : p.fxCcyPairs = []) (hyn : p.yieldCurveNames = [])
    (hsw : p.swapVolCcys = []) (hcf : p.capFloorVolCcys = [])
    (hdef : p.defaultNames = []) (hfxv : p.fxVolCcyPairs = [])
    (heq : p.equityNames = []) (heqv : p.eqVolNames = [])
    (ht : ∃ t ts, p.yieldCurveTenors = t :: ts ∧ 0 < t) :
    buildSimData p im = Except.ok []
    ∧ (∀ (m : ScenarioSimMarket) (d : Date), m.simData = [] →
        (m.generator.next d).1.keys = [] →
        ∃ m', (m.update d).1 = Except.ok m') := by
  constructor
  · rcases ht with ⟨t, ts, hts, htpos⟩
    have h1 : tenorFrontCheck p.yieldCurveTenors
        "yield curve tenors must not include t=0" = Except.ok () := by
      rw [hts]
      unfold tenorFrontCheck
      dsimp only
      rw [if_pos htpos]
    have h2 : swapVolSection p im = Except.ok [] := by
      unfold swapVolSection
      rw [hsw]
      rfl
    have h3 : capFloorVolSection p im = Except.ok [] := by
      unfold capFloorVolSection
      rw [hcf]
      rfl
    have h4 : defaultCurvesSection p = Except.ok () := by
      unfold defaultCurvesSection
      rw [hdef]
      rfl
    have h5 : fxVolSection p im = Except.ok [] := by
      unfold fxVolSection
      rw [hfxv]
      rfl
    have h6 : equityTenorCheck p = Except.ok () := by
      unfold equityTenorCheck
      rw [heq]
      rfl
    have h7 : eqVolSection p im = Except.ok [] := by
      unfold eqVolSection
      rw [heqv]
      rfl
    have h8 : fxSpotSection p im = [] := by
      unfold fxSpotSection
      rw [hfx]
      rfl
    have h9 : discountSection p im = [] := by
      unfold discountSection
      rw [hccys]
      rfl
    have h10 : benchmarkSection p im = [] := by
      unfold benchmarkSection
      rw [hyn]
      rfl
    have h11 : indexSection p im = [] := by
      unfold indexSection
      rw [hind]
      rfl
    have h12 : equitySpotSection p im = [] := by
      unfold equitySpotSection
      rw [heq]
      rfl
    unfold buildSimData
    rw [h1, h2, h3, h4, h5, h6, h7, h8, h9, h10, h11, h12]
    rfl
  · intro m d h0 hk
    have hm : (updateLoop (m.generator.next d).1 m.simData).missingPoint
        = false := by
      rw [updateLoop_missingPoint, hk]
      rfl
    have hc : (updateLoop (m.generator.next d).1 m.simData).count
        = m.simData.length := by
      rw [updateLoop_count, hk, h0]
      rfl
    exact ⟨_, by rw [update_eq_of_ok m d hm hc]⟩

def c5ParamsEmpty : SimMarketParams :=
  { c9Params "ConstantVariance" with swapVolCcys := [] }

def c5EmptyScenario : Scenario := ⟨[], fun _ => 0, 1⟩

def c5Market : ScenarioSimMarket :=
  { simData := []
    numeraire := 1
    generator := ⟨fun _ _ => c5EmptyScenario, 0⟩
    evalDate := 0
    obsMode := ObsMode.Accurate
    asdAttached := false
    addScenDataIndices := []
    addScenDataCcys := []
    baseCcy := "EUR"
    iborFixing := fun _ _ => 0
    fxTriangulation := fun _ => 0 }

theorem claim_C5_witness :
    buildSimData c5ParamsEmpty c9InitMarket = Except.ok []
    ∧ (∃ m', (c5Market.update 1).1 = Except.ok m') := by
  have h := claim_C5 c5ParamsEmpty c9InitMarket rfl rfl rfl rfl rfl rfl rfl
    rfl rfl rfl ⟨365, [], rfl, by decide⟩
  exact ⟨h.1, h.2 c5Market 1 rfl rfl⟩

/-! ### Claim C3: XVA-stage cross checks (oreapp.cpp lines 181 to 204) -/

/-- The dimensions of a loaded NPV cube that the XVA stage inspects. -/
structure CubeDims where
  numIds : Nat
  datesLen : Nat
  samples : Nat
  deriving DecidableEq, Repr

/-- The dimensions of the loaded aggregation scenario data. -/
structure AsdDims where
  dimDates : Nat
  dimSamples : Nat
  deriving DecidableEq, Repr

inductive XvaAction
  | runPostProcessor
  deriving DecidableEq, Repr

/-- The XVA block of `OREApp::run`: three `QL_REQUIRE` cross-checks in
source order, then `runPostProcessor()`.  A failing check throws before the
post-processor is reached; the returned action list records what ran. -/
def xvaBlock (cube : CubeDims) (portfolioSize : Nat) (asd : AsdDims) :
    Except String (List XvaAction) :=
  if cube.numIds = portfolioSize then
    if asd.dimDates = cube.datesLen then
      if asd.dimSamples = cube.samples then
        Except.ok [XvaAction.runPostProcessor]
      else Except.error "scenario sample size does not match cube sample size"
    else Except.error "scenario dates do not match cube grid size"
  else Except.error "cube x dimension does not match portfolio size"

/-- Claim C3: at the XVA stage the post-processor runs exactly when the
loaded cube numIds matches the portfolio size, the aggregation scenario
data date dimension matches the cube date-grid length, and its sample
dimension matches the cube sample count; otherwise the run fails fatally
before any post-processing. -/
theorem claim_C3 (cube : CubeDims) (portfolioSize : Nat) (asd : AsdDims) :
    ((∃ acts, xvaBlock cube portfolioSize asd = Except.ok acts ∧
        XvaAction.runPostProcessor ∈ acts) ↔
      (cube.numIds = portfolioSize ∧ asd.dimDates = cube.datesLen ∧
        asd.dimSamples = cube.samples))
    ∧ (¬(cube.numIds = portfolioSize ∧ asd.dimDates = cube.datesLen ∧
          asd.dimSamples = cube.samples) →
        ∃ e, xvaBlock cube portfolioSize asd = Except.error e) := by
  by_cases h1 : cube.numIds = portfolioSize <;>
    by_cases h2 : asd.dimDates = cube.datesLen <;>
      by_cases h3 : asd.dimSamples = cube.samples <;>
        simp [xvaBlock, h1, h2, h3]

theorem claim_C3_witness :
    (∃ acts, xvaBlock ⟨3, 5, 10⟩ 3 ⟨5, 10⟩ = Except.ok acts ∧
      XvaAction.runPostProcessor ∈ acts)
    ∧ (∃ e, xvaBlock ⟨3, 5, 10⟩ 4 ⟨5, 10⟩ = Except.error e) :=
  ⟨(claim_C3 ⟨3, 5, 10⟩ 3 ⟨5, 10⟩).1.mpr ⟨rfl, rfl, rfl⟩,
    (claim_C3 ⟨3, 5, 10⟩ 4 ⟨5, 10⟩).2 (by decide)⟩

/-! ### Claim C8: cube construction (oreapp.cpp lines 574 to 583) -/

inductive CubeKind
  | SinglePrecisionInMemoryCube
  | SinglePrecisionInMemoryCubeN
  deriving DecidableEq, Repr

/-- The cube object built by `OREApp::initCube`: the concrete class plus
its construction arguments; `depth` is the number of stored measures per
(trade, date, sample), measure 0 being NPV. -/
structure NPVCubeSpec where
  kind : CubeKind
  asof : Date
  ids : List String
  dates : List Date
  samples : Nat
  depth : Nat
  deriving DecidableEq, Repr

/-- `OREApp::initCube`: depth 1 builds a `SinglePrecisionInMemoryCube`
(NPV only), depth 2 builds a `SinglePrecisionInMemoryCubeN` carrying NPV
plus one extra measure, anything else is a fatal error. -/
def initCube (asof : Date) (ids : List String) (dates : List Date)
    (samples : Nat) (cubeDepth : Nat) : Except String NPVCubeSpec :=
  if cubeDepth = 1 then
    Except.ok ⟨CubeKind.SinglePrecisionInMemoryCube, asof, ids, dates,
      samples, 1⟩
  else if cubeDepth = 2 then
    Except.ok ⟨CubeKind.SinglePrecisionInMemoryCubeN, asof, ids, dates,
      samples, cubeDepth⟩
  else Except.error "cube depth 1 or 2 expected"

/-- Claim C8: requesting a cube depth outside the set containing 1 and 2
fails fatally with a descriptive error; depth 1 builds an NPV-only cube
(one measure) and depth 2 builds a cube carrying NPV plus one auxiliary
measure (two measures). -/
theorem claim_C8 (asof : Date) (ids : List String) (dates : List Date)
    (samples : Nat) (cubeDepth : Nat) :
    (cubeDepth = 1 → initCube asof ids dates samples cubeDepth =
      Except.ok ⟨CubeKind.SinglePrecisionInMemoryCube, asof, ids, dates,
        samples, 1⟩)
    ∧ (cubeDepth = 2 → initCube asof ids dates samples cubeDepth =
      Except.ok ⟨CubeKind.SinglePrecisionInMemoryCubeN, asof, ids, dates,
        samples, 2⟩)
    ∧ (cubeDepth ≠ 1 → cubeDepth ≠ 2 →
      initCube asof ids dates samples cubeDepth =
        Except.error "cube depth 1 or 2 expected") := by
  refine ⟨?_, ?_, ?_⟩
  · intro h
    unfold initCube
    rw [if_pos h]
  · intro h
    unfold initCube
    rw [if_neg (by omega), if_pos h, h]
  · intro h1 h2
    unfold initCube
    rw [if_neg h1, if_neg h2]

theorem claim_C8_witness :
    initCube 0 ["t1"] [1] 10 1 =
      Except.ok ⟨CubeKind.SinglePrecisionInMemoryCube, 0, ["t1"], [1], 10, 1⟩
    ∧ initCube 0 ["t1"] [1] 10 2 =
      Except.ok ⟨CubeKind.SinglePrecisionInMemoryCubeN, 0, ["t1"], [1], 10, 2⟩
    ∧ initCube 0 ["t1"] [1] 10 3 =
      Except.error "cube depth 1 or 2 expected" :=
  ⟨(claim_C8 0 ["t1"] [1] 10 1).1 rfl,
    (claim_C8 0 ["t1"] [1] 10 2).2.1 rfl,
    (claim_C8 0 ["t1"] [1] 10 3).2.2 (by decide) (by decide)⟩

/-! ### Claim C10: per-qualifier parameter lookups
(scenariosimmarketparameters.cpp lines 34 to 52 and the accessors) -/

/-- `m.count(k)` on a std::map modelled as an association list. -/
def mapCount {α : Type} (m : List (String × α)) (k : String) : Nat :=
  m.countP (fun q => decide (q.1 = k))

/-- `m.at(k)` under the guard `m.count(k) > 0` (total via a default that
the guarded callers never hit). -/
def mapAt {α : Type} [Inhabited α] (m : List (String × α)) (k : String) :
    α :=
  ((m.find? (fun q => decide (q.1 = k))).map Prod.snd).getD default

/-- `returnTenors`: exact key first, then the empty-string default key,
else a fatal error. -/
def returnTenors (m : List (String × List Period)) (k : String) :
    Except String (List Period) :=
  if 0 < mapCount m k then Except.ok (mapAt m k)
  else if 0 < mapCount m "" then Except.ok (mapAt m "")
  else Except.error ("no period vector for key \"" ++ k ++ "\" found.")

/-- `returnDayCounter`: same lookup policy for day counters/calendars. -/
def returnDayCounter (m : List (String × String)) (k : String) :
    Except String String :=
  if 0 < mapCount m k then Except.ok (mapAt m k)
  else if 0 < mapCount m "" then Except.ok (mapAt m "")
  else Except.error ("no dayCounter for key \"" ++ k ++ "\" found.")

/-- The map-backed accessor fields of `ScenarioSimMarketParameters` that
claim C10 touches. -/
structure SimMarketParamsMaps where
  yieldCurveTenorsMap : List (String × List Period)
  yieldCurveDayCountersMap : List (String × String)
  defaultTenorsMap : List (String × List Period)
  defaultCurveCalendarsMap : List (String × String)

/-- `ScenarioSimMarketParameters::yieldCurveTenors(key)`. -/
def SimMarketParamsMaps.yieldCurveTenors (p : SimMarketParamsMaps)
    (k : String) : Except String (List Period) :=
  returnTenors p.yieldCurveTenorsMap k

/-- `ScenarioSimMarketParameters::yieldCurveDayCounter(key)`. -/
def SimMarketParamsMaps.yieldCurveDayCounter (p : SimMarketParamsMaps)
    (k : String) : Except String String :=
  returnDayCounter p.yieldCurveDayCountersMap k

/-- `ScenarioSimMarketParameters::defaultTenors(key)`. -/
def SimMarketParamsMaps.defaultTenors (p : SimMarketParamsMaps)
    (k : String) : Except String (List Period) :=
  returnTenors p.defaultTenorsMap k

/-- `ScenarioSimMarketParameters::defaultCurveCalendar(key)`. -/
def SimMarketParamsMaps.defaultCurveCalendar (p : SimMarketParamsMaps)
    (k : String) : Except String String :=
  returnDayCounter p.defaultCurveCalendarsMap k

/-- Claim C10: every per-qualifier lookup returns the exact-key entry when
present, falls back to the empty-string default entry otherwise, and errors
exactly when neither is present; the public accessors are these lookups on
the respective maps. -/
theorem claim_C10 (p : SimMarketParamsMaps) (k : String) :
    (∀ m : List (String × List Period),
      (0 < mapCount m k → returnTenors m k = Except.ok (mapAt m k))
      ∧ (mapCount m k = 0 → 0 < mapCount m "" →
          returnTenors m k = Except.ok (mapAt m ""))
      ∧ ((∃ e, returnTenors m k = Except.error e) ↔
          (mapCount m k = 0 ∧ mapCount m "" = 0)))
    ∧ (∀ m : List (String × String),
      (0 < mapCount m k → returnDayCounter m k = Except.ok (mapAt m k))
      ∧ (mapCount m k = 0 → 0 < mapCount m "" →
          returnDayCounter m k = Except.ok (mapAt m ""))
      ∧ ((∃ e, returnDayCounter m k = Except.error e) ↔
          (mapCount m k = 0 ∧ mapCount m "" = 0)))
    ∧ p.yieldCurveTenors k = returnTenors p.yieldCurveTenorsMap k
    ∧ p.defaultTenors k = returnTenors p.defaultTenorsMap k
    ∧ p.yieldCurveDayCounter k = returnDayCounter p.yieldCurveDayCountersMap k
    ∧ p.defaultCurveCalendar k =
        returnDayCounter p.defaultCurveCalendarsMap k := by
  refine ⟨?_, ?_, rfl, rfl, rfl, rfl⟩
  · intro m
    refine ⟨?_, ?_, ?_⟩
    · intro h
      unfold returnTenors
      rw [if_pos h]
    · intro h0 h1
      unfold returnTenors
      rw [if_neg (by omega), if_pos h1]
    · constructor
      · rintro ⟨e, he⟩
        unfold returnTenors at he
        by_cases hA : 0 < mapCount m k
        · rw [if_pos hA] at he
          cases he
        · by_cases hB : 0 < mapCount m ""
          · rw [if_neg hA, if_pos hB] at he
            cases he
          · exact ⟨by omega, by omega⟩
      · rintro ⟨h0, h1⟩
        refine ⟨"no period vector for key \"" ++ k ++ "\" found.", ?_⟩
        unfold returnTenors
        rw [if_neg (by omega), if_neg (by omega)]
  · intro m
    refine ⟨?_, ?_, ?_⟩
    · intro h
      unfold returnDayCounter
      rw [if_pos h]
    · intro h0 h1
      unfold returnDayCounter
      rw [if_neg (by omega), if_pos h1]
    · constructor
      · rintro ⟨e, he⟩
        unfold returnDayCounter at he
        by_cases hA : 0 < mapCount m k
        · rw [if_pos hA] at he
          cases he
        · by_cases hB : 0 < mapCount m ""
          · rw [if_neg hA, if_pos hB] at he
            cases he
          · exact ⟨by omega, by omega⟩
      · rintro ⟨h0, h1⟩
        refine ⟨"no dayCounter for key \"" ++ k ++ "\" found.", ?_⟩
        unfold returnDayCounter
        rw [if_neg (by omega), if_neg (by omega)]

theorem claim_C10_witness :
    returnTenors [("", [365]), ("EUR", [180])] "EUR" = Except.ok [180]
    ∧ returnTenors [("", [365]), ("EUR", [180])] "USD" = Except.ok [365]
    ∧ (∃ e, returnTenors [("EUR", [180])] "USD" = Except.error e) := by
  refine ⟨?_, ?_, ?_⟩
  · have h := ((claim_C10 ⟨[], [], [], []⟩ "EUR").1
      [("", [365]), ("EUR", [180])]).1 (by decide)
    rw [h]
    rfl
  · have h := ((claim_C10 ⟨[], [], [], []⟩ "USD").1
      [("", [365]), ("EUR", [180])]).2.1 (by decide) (by decide)
    rw [h]
    rfl
  · exact ((claim_C10 ⟨[], [], [], []⟩ "USD").1 [("EUR", [180])]).2.2.mpr
      ⟨by decide, by decide⟩

end OREEngine
